import Mathlib

/-!
Verification development for the alpaka-job-matrix-library core:
the row/parameter data model with positional indirection (`util.py`),
the filter modules (`filter_compiler_name.py`, `filter_compiler_version.py`,
`filter_backend_version.py`, `filter_software_dependency.py`),
the validate tool (`validate.py`), the ordering pipeline (`util.py`)
and the coverage oracle (`impl2.py`).

Conventions of the shallow embedding:
* Version strings are kept as `String` inside rows, exactly as in the Python
  source; they are parsed to a list of numeric components at every comparison
  site, mirroring `packaging.version.parse`.  `parseVersion` models the
  release-component parsing of `packaging` for the dotted numeric version
  strings this library works with; comparison pads the shorter release tuple
  with zeros, as `packaging` does.
* The process-wide `param_map` dictionary of `globals.py` is passed explicitly
  as a total function `pm : String → Nat`.  Parameter names that are not bound
  in a concrete evaluation context are mapped to positions at or beyond the
  row length, which makes `is_in_row` return `false` for them (the test suite
  configures `param_map` the same way: unused parameters get positions past
  the end of the row).
* Functions that can raise (`row_check_name`, `row_check_version`,
  `row_check_backend_version`, `search_and_move_job`) return `Except String`;
  alongside them `..B` variants give the body after operator validation, which
  is what the filter modules reach because every call site passes one of the
  supported operator literals.
-/

/-- Release components of a dotted numeric version string, accumulating the
current numeric component; models `packaging.version.parse` on the dotted
numeric strings used by the library ("9", "11.2", "0.0.0", ...). -/
def parseVersionAux : List Char → Nat → List Nat
  | [], acc => [acc]
  | c :: cs, acc =>
    if c = '.' then acc :: parseVersionAux cs 0
    else parseVersionAux cs (10 * acc + (c.toNat - 48))

/-- Parse a dotted numeric version string into its release components. -/
def parseVersion (s : String) : List Nat :=
  parseVersionAux s.data 0

/-- Compare two release tuples the way `packaging.version` does: componentwise,
padding the shorter tuple with zeros. -/
def vcmp : List Nat → List Nat → Ordering
  | [], bs => if bs.all (· = 0) then .eq else .lt
  | a :: as', [] => if a = 0 then vcmp as' [] else .gt
  | a :: as', b :: bs =>
    if a < b then .lt else if b < a then .gt else vcmp as' bs

/-- Embedding of `OPERATOR_MAP` of `util.py` applied to two parsed versions.  The default
case is unreachable in the source because every caller validates the operator
against `OPERATOR_MAP` first. -/
def applyVersionOp (opr : String) (a b : List Nat) : Bool :=
  if opr = "==" then vcmp a b = .eq
  else if opr = "!=" then vcmp a b ≠ .eq
  else if opr = "<" then vcmp a b = .lt
  else if opr = "<=" then vcmp a b ≠ .gt
  else if opr = ">" then vcmp a b = .gt
  else if opr = ">=" then vcmp a b ≠ .lt
  else false

/-- The keys of `OPERATOR_MAP` in `util.py`. -/
def operatorNames : List String := ["==", "!=", "<", "<=", ">", ">="]

/-- Embedding of `OPERATOR_MAP` applied to two names (only `==` and `!=` reach it through
`row_check_name`). -/
def applyNameOp (opr : String) (a b : String) : Bool :=
  if opr = "==" then a = b
  else if opr = "!=" then a ≠ b
  else false

/-- Python `int()` on the non-negative decimal strings the filters convert
(e.g. gcc major versions, C++ standard numbers). -/
def pyInt (s : String) : Nat :=
  s.data.foldl (fun acc c => 10 * acc + (c.toNat - 48)) 0

-- Parameter-name constants.  Their string values come from `globals.py`,
-- which is not part of the sources here; the filters treat them as opaque
-- distinct keys of `param_map`, and the values used below follow the
-- documentation in `util.py` and the command-line names in `validate.py`.
def HOST_COMPILER : String := "host_compiler"
def DEVICE_COMPILER : String := "device_compiler"
def BACKENDS : String := "backends"
def UBUNTU : String := "ubuntu"
def CMAKE : String := "cmake"
def BOOST : String := "boost"
def CXX_STANDARD : String := "cxx_standard"
def GCC : String := "gcc"
def CLANG : String := "clang"
def NVCC : String := "nvcc"
def CLANG_CUDA : String := "clang-cuda"
def HIPCC : String := "hipcc"
def ICPX : String := "icpx"
def ALPAKA_ACC_GPU_CUDA_ENABLE : String := "alpaka_ACC_GPU_CUDA_ENABLE"
def ALPAKA_ACC_GPU_HIP_ENABLE : String := "alpaka_ACC_GPU_HIP_ENABLE"
def ALPAKA_ACC_SYCL_ENABLE : String := "alpaka_ACC_SYCL_ENABLE"

/-- Sentinel version for a disabled back-end; `globals.py` sets it to the
string "0.0.0" (see the example row in the `util.py` module docstring), the
lowest possible version value. -/
def OFF_VER : String := "0.0.0"

/-- Sentinel version for a back-end that is enabled without a numeric
version; "1.0.0" in the `util.py` module docstring. -/
def ON_VER : String := "1.0.0"

/-- One entry of a row: either a `(name, version)` pair or, for the `BACKENDS`
position only, a list of `(backend-name, version)` pairs.  This is the row
shape documented in the module docstring of `util.py`. -/
inductive RowElem where
  | single : String → String → RowElem
  | backendList : List (String × String) → RowElem
deriving DecidableEq, Repr

/-- A row: positionally indexed parameter values, possibly shorter than the
full parameter set. -/
abbrev Row := List RowElem

/-- The explicit counterpart of the global `param_map` dictionary. -/
abbrev ParamMap := String → Nat

/-- Embedding of `row[i][NAME]` for a `(name, version)` entry.  The `backendList` case
falls outside the documented row shape (the source would index into a tuple
there); it is never reached by any theorem below, which either use concrete
well-shaped rows or carry a shape hypothesis. -/
def elemName : RowElem → String
  | .single n _ => n
  | .backendList _ => ""

/-- Embedding of `row[i][VERSION]` for a `(name, version)` entry; see `elemName` for the
`backendList` case. -/
def elemVersion : RowElem → String
  | .single _ v => v
  | .backendList _ => ""

/-- The backend sub-variant list stored at the `BACKENDS` position; see
`elemName` for the `single` case. -/
def elemBackends : RowElem → List (String × String)
  | .single _ _ => []
  | .backendList bs => bs

/-- Default element used for guarded positional accesses. -/
def emptyElem : RowElem := .single "" ""

/-- Embedding of `row[param_map[name]]` (only consulted behind an `is_in_row` guard in the
source). -/
def rowAt (pm : ParamMap) (row : Row) (name : String) : RowElem :=
  row.getD (pm name) emptyElem

/-- Embedding of `is_in_row` of `util.py`: the parameter's bound position lies within the
row's length. -/
def is_in_row (pm : ParamMap) (row : Row) (name : String) : Bool :=
  pm name < row.length

/-- Body of `row_check_name` after operator validation. -/
def row_check_nameB (pm : ParamMap) (row : Row) (colum opr name : String) : Bool :=
  is_in_row pm row colum && applyNameOp opr (elemName (rowAt pm row colum)) name

/-- Embedding of `row_check_name` of `util.py`: validates the operator first and raises
`ValueError` for anything other than `==` and `!=`. -/
def row_check_name (pm : ParamMap) (row : Row) (colum opr name : String) :
    Except String Bool :=
  if ¬ (opr = "==" ∨ opr = "!=") then
    .error "op (operator) needs to be == or !="
  else
    .ok (row_check_nameB pm row colum opr name)

/-- Body of `row_check_version` after operator validation. -/
def row_check_versionB (pm : ParamMap) (row : Row) (colum opr version : String) : Bool :=
  is_in_row pm row colum &&
    applyVersionOp opr (parseVersion (elemVersion (rowAt pm row colum)))
      (parseVersion version)

/-- Embedding of `row_check_version` of `util.py`: validates the operator against
`OPERATOR_MAP` first and raises `ValueError` for unsupported operators. -/
def row_check_version (pm : ParamMap) (row : Row) (colum opr version : String) :
    Except String Bool :=
  if ¬ opr ∈ operatorNames then
    .error "operator needs to be: ==, !=, <, <=, >, >="
  else
    .ok (row_check_versionB pm row colum opr version)

/-- Embedding of `backend_is_not_in_row` of `util.py`: `true` when the `BACKENDS` axis is
absent from the row or the searched backend name is not in the backend
list. -/
def backend_is_not_in_row (pm : ParamMap) (row : Row) (backend : String) : Bool :=
  if ¬ is_in_row pm row BACKENDS then
    true
  else
    ¬ (elemBackends (rowAt pm row BACKENDS)).any (fun rb => rb.1 = backend)

/-- Body of `row_check_backend_version` after operator validation: absent
axis or absent backend name yield `false`, otherwise the first sub-variant
with the searched name is compared. -/
def row_check_backend_versionB (pm : ParamMap) (row : Row)
    (backend opr version : String) : Bool :=
  if ¬ is_in_row pm row BACKENDS then
    false
  else
    match (elemBackends (rowAt pm row BACKENDS)).find? (fun rb => rb.1 = backend) with
    | some rb => applyVersionOp opr (parseVersion rb.2) (parseVersion version)
    | none => false

/-- Embedding of `row_check_backend_version` of `util.py`: validates the operator against
`OPERATOR_MAP` first and raises `ValueError` for unsupported operators. -/
def row_check_backend_version (pm : ParamMap) (row : Row)
    (backend opr version : String) : Except String Bool :=
  if ¬ opr ∈ operatorNames then
    .error "operator needs to be: ==, !=, <, <=, >, >="
  else
    .ok (row_check_backend_versionB pm row backend opr version)

example : parseVersion "11.2" = [11, 2] := by decide
example : parseVersion "0.0.0" = [0, 0, 0] := by decide
example : vcmp (parseVersion "9") (parseVersion "10") = .lt := by decide
example : vcmp (parseVersion "11.2") (parseVersion "11.10") = .lt := by decide
example : vcmp (parseVersion "12") (parseVersion "12.0") = .eq := by decide
example : applyVersionOp "!=" (parseVersion "11.2") (parseVersion "0.0.0") = true := by decide

/-! ## Filter modules -/

/-- Embedding of `general_compiler_filter` of `filter_compiler_name.py` (the diagnostics
sink only receives rejection text and is omitted). -/
def general_compiler_filter (pm : ParamMap) (row : Row) : Bool :=
  -- it is not allowed to use nvcc as host compiler
  if row_check_nameB pm row HOST_COMPILER "==" NVCC then false
  -- only nvcc allows combining different host and device compilers
  else if is_in_row pm row HOST_COMPILER && is_in_row pm row DEVICE_COMPILER &&
      (elemName (rowAt pm row DEVICE_COMPILER) != NVCC &&
        elemName (rowAt pm row HOST_COMPILER) != elemName (rowAt pm row DEVICE_COMPILER)) then
    false
  -- only clang and gcc are allowed as nvcc host compiler
  else if row_check_nameB pm row DEVICE_COMPILER "==" NVCC &&
      ¬ (row_check_nameB pm row HOST_COMPILER "==" GCC ||
         row_check_nameB pm row HOST_COMPILER "==" CLANG) then
    false
  else true

/-- The `(maximum_CUDA_SDK_version, maximum_gcc_version)` table of
`compiler_version_filter`. -/
def nvcc_gcc_combinations : List (String × String) :=
  [("12.3", "12"), ("12.0", "12"), ("11.4", "11"), ("11.1", "10"),
   ("11.0", "9"), ("10.1", "8"), ("10.0", "7")]

/-- The `(maximum_CUDA_SDK_version, maximum_clang_version)` table of
`compiler_version_filter`. -/
def nvcc_clang_combinations : List (String × String) :=
  [("12.3", "16"), ("12.2", "15"), ("12.1", "15"), ("12.0", "14"),
   ("11.6", "13"), ("11.4", "12"), ("11.2", "11"), ("11.1", "10"),
   ("11.0", "9"), ("10.1", "8"), ("10.0", "6")]

/-- The table walk of `compiler_version_filter`: the first entry whose SDK
bound is at most the device version decides; reject when the host version
exceeds that entry's host bound (the loop `break`s otherwise). -/
def tableRejects (combinations : List (String × String)) (dev host : List Nat) : Bool :=
  match combinations.find? (fun c => vcmp dev (parseVersion c.1) ≠ .lt) with
  | some c => vcmp host (parseVersion c.2) = .gt
  | none => false

/-- The gcc host-compiler block of `compiler_version_filter` (device compiler
is nvcc): both the table walk and the minimum-GCC-6 rule are guarded by
`device_version <= combinations[0][0]`, i.e. nothing fires for CUDA versions
newer than the table. -/
def nvccGccRejects (pm : ParamMap) (row : Row) : Bool :=
  let dev := parseVersion (elemVersion (rowAt pm row DEVICE_COMPILER))
  let host := parseVersion (elemVersion (rowAt pm row HOST_COMPILER))
  if vcmp dev (parseVersion "12.3") ≠ .gt then
    tableRejects nvcc_gcc_combinations dev host ||
      -- since CUDA 11.4 the minimum supported GCC compiler is GCC 6
      (vcmp dev (parseVersion "11.4") ≠ .lt && vcmp host (parseVersion "6") = .lt)
  else false

/-- The clang host-compiler block of `compiler_version_filter` (device
compiler is nvcc). -/
def nvccClangRejects (pm : ParamMap) (row : Row) : Bool :=
  -- clang as host compiler is disabled for nvcc 11.3 until 11.5
  (row_check_versionB pm row DEVICE_COMPILER ">=" "11.3" &&
     row_check_versionB pm row DEVICE_COMPILER "<=" "11.5") ||
  (let dev := parseVersion (elemVersion (rowAt pm row DEVICE_COMPILER))
   let host := parseVersion (elemVersion (rowAt pm row HOST_COMPILER))
   if vcmp dev (parseVersion "12.3") ≠ .gt then
     tableRejects nvcc_clang_combinations dev host
   else false)

/-- Embedding of `compiler_version_filter` of `filter_compiler_version.py`. -/
def compiler_version_filter (pm : ParamMap) (row : Row) : Bool :=
  -- same compiler for host and device code requires the same version
  -- (the version strings are compared directly in the source)
  if is_in_row pm row HOST_COMPILER && is_in_row pm row DEVICE_COMPILER &&
      (row_check_nameB pm row DEVICE_COMPILER "!=" NVCC &&
        elemVersion (rowAt pm row HOST_COMPILER) != elemVersion (rowAt pm row DEVICE_COMPILER)) then
    false
  else if row_check_nameB pm row DEVICE_COMPILER "==" NVCC &&
      ((row_check_nameB pm row HOST_COMPILER "==" GCC && nvccGccRejects pm row) ||
       (row_check_nameB pm row HOST_COMPILER "==" CLANG && nvccClangRejects pm row)) then
    false
  -- all clang versions older than 14 are disabled as CUDA compiler
  else if row_check_nameB pm row DEVICE_COMPILER "==" CLANG_CUDA &&
      row_check_versionB pm row DEVICE_COMPILER "<" "14" then
    false
  else true

/-- The `(clang_cuda_version, cuda_sdk_version)` support table of
`compiler_backend_filter`. -/
def clangcuda_cudasdk_versions : List (String × String) :=
  [("7", "9.2"), ("8", "10.0"), ("10", "10.1"), ("12", "11.0"),
   ("13", "11.2"), ("16", "11.5")]

/-- Embedding of `compiler_backend_filter` of `filter_backend_version.py`. -/
def compiler_backend_filter (pm : ParamMap) (row : Row) : Bool :=
  -- gcc device compiler forbids the CUDA, HIP and SYCL back-ends
  if row_check_nameB pm row DEVICE_COMPILER "==" GCC &&
      (row_check_backend_versionB pm row ALPAKA_ACC_GPU_CUDA_ENABLE "!=" OFF_VER ||
       row_check_backend_versionB pm row ALPAKA_ACC_GPU_HIP_ENABLE "!=" OFF_VER ||
       row_check_backend_versionB pm row ALPAKA_ACC_SYCL_ENABLE "!=" OFF_VER) then
    false
  -- clang device compiler forbids the CUDA, HIP and SYCL back-ends
  else if row_check_nameB pm row DEVICE_COMPILER "==" CLANG &&
      (row_check_backend_versionB pm row ALPAKA_ACC_GPU_CUDA_ENABLE "!=" OFF_VER ||
       row_check_backend_versionB pm row ALPAKA_ACC_GPU_HIP_ENABLE "!=" OFF_VER ||
       row_check_backend_versionB pm row ALPAKA_ACC_SYCL_ENABLE "!=" OFF_VER) then
    false
  -- nvcc needs the CUDA back-end with exactly its own version,
  -- and forbids HIP and SYCL
  else if row_check_nameB pm row DEVICE_COMPILER "==" NVCC &&
      ((backend_is_not_in_row pm row ALPAKA_ACC_GPU_CUDA_ENABLE ||
          row_check_backend_versionB pm row ALPAKA_ACC_GPU_CUDA_ENABLE "!="
            (elemVersion (rowAt pm row DEVICE_COMPILER))) ||
        row_check_backend_versionB pm row ALPAKA_ACC_GPU_HIP_ENABLE "!=" OFF_VER ||
        row_check_backend_versionB pm row ALPAKA_ACC_SYCL_ENABLE "!=" OFF_VER) then
    false
  -- clang-cuda needs an enabled CUDA back-end, forbids HIP and SYCL,
  -- and is bounded by its CUDA SDK support table
  else if row_check_nameB pm row DEVICE_COMPILER "==" CLANG_CUDA &&
      ((backend_is_not_in_row pm row ALPAKA_ACC_GPU_CUDA_ENABLE ||
          row_check_backend_versionB pm row ALPAKA_ACC_GPU_CUDA_ENABLE "==" OFF_VER) ||
        row_check_backend_versionB pm row ALPAKA_ACC_GPU_HIP_ENABLE "!=" OFF_VER ||
        row_check_backend_versionB pm row ALPAKA_ACC_SYCL_ENABLE "!=" OFF_VER ||
        clangcuda_cudasdk_versions.any (fun c =>
          row_check_versionB pm row DEVICE_COMPILER "<=" c.1 &&
            row_check_backend_versionB pm row ALPAKA_ACC_GPU_CUDA_ENABLE ">" c.2)) then
    false
  -- hipcc needs the HIP back-end with exactly its own version,
  -- and forbids CUDA and SYCL
  else if row_check_nameB pm row DEVICE_COMPILER "==" HIPCC &&
      ((backend_is_not_in_row pm row ALPAKA_ACC_GPU_HIP_ENABLE ||
          row_check_backend_versionB pm row ALPAKA_ACC_GPU_HIP_ENABLE "!="
            (elemVersion (rowAt pm row DEVICE_COMPILER))) ||
        row_check_backend_versionB pm row ALPAKA_ACC_GPU_CUDA_ENABLE "!=" OFF_VER ||
        row_check_backend_versionB pm row ALPAKA_ACC_SYCL_ENABLE "!=" OFF_VER) then
    false
  -- icpx forbids the CUDA and HIP back-ends
  else if row_check_nameB pm row DEVICE_COMPILER "==" ICPX &&
      (row_check_backend_versionB pm row ALPAKA_ACC_GPU_CUDA_ENABLE "!=" OFF_VER ||
       row_check_backend_versionB pm row ALPAKA_ACC_GPU_HIP_ENABLE "!=" OFF_VER) then
    false
  else true

/-- The `(nvcc_version, cxx_standard)` support table of
`software_dependency_filter`. -/
def nvcc_cxx_versions : List (String × Nat) :=
  [("11.0", 17), ("12.0", 20), ("12.3", 23)]

/-- Embedding of `software_dependency_filter` of `filter_software_dependency.py`.  Python's
`int()` on the version string is modelled by `pyInt`. -/
def software_dependency_filter (pm : ParamMap) (row : Row) : Bool :=
  -- GCC 6 and below is not available on Ubuntu 20.04
  if row_check_versionB pm row UBUNTU "==" "20.04" &&
      (row_check_nameB pm row HOST_COMPILER "==" GCC &&
        pyInt (elemVersion (rowAt pm row HOST_COMPILER)) ≤ 6) then
    false
  -- GCC 9 and older does not support -std=c++20
  else if row_check_versionB pm row CXX_STANDARD ">=" "20" &&
      row_check_nameB pm row HOST_COMPILER "==" GCC &&
      row_check_versionB pm row HOST_COMPILER "<=" "9" then
    false
  -- nvcc versions too old for the requested C++ standard
  else if row_check_nameB pm row DEVICE_COMPILER "==" NVCC &&
      is_in_row pm row CXX_STANDARD &&
      nvcc_cxx_versions.any (fun nc =>
        vcmp (parseVersion (elemVersion (rowAt pm row DEVICE_COMPILER)))
            (parseVersion nc.1) = .lt &&
          nc.2 ≤ pyInt (elemVersion (rowAt pm row CXX_STANDARD))) then
    false
  -- clang 11 and 12 are not available in the Ubuntu 18.04 ppa
  else if row_check_versionB pm row UBUNTU "==" "18.04" &&
      (row_check_nameB pm row HOST_COMPILER "==" CLANG ||
       row_check_nameB pm row HOST_COMPILER "==" CLANG_CUDA) &&
      (row_check_versionB pm row HOST_COMPILER "==" "11" ||
       row_check_versionB pm row HOST_COMPILER "==" "12") then
    false
  -- clang 9 and older does not support -std=c++20
  else if row_check_versionB pm row CXX_STANDARD ">=" "20" &&
      [CLANG, CLANG_CUDA].any (fun cn =>
        row_check_nameB pm row HOST_COMPILER "==" cn &&
          row_check_versionB pm row HOST_COMPILER "<=" "9") then
    false
  -- ubuntu 18.04 containers are not available for CUDA 11.0 and later
  else if row_check_versionB pm row UBUNTU "==" "18.04" &&
      row_check_backend_versionB pm row ALPAKA_ACC_GPU_CUDA_ENABLE "!=" OFF_VER &&
      row_check_backend_versionB pm row ALPAKA_ACC_GPU_CUDA_ENABLE ">=" "11.0" then
    false
  -- ubuntu 20.04 containers are not available for CUDA 10.2 and before
  else if row_check_versionB pm row UBUNTU "==" "20.04" &&
      row_check_backend_versionB pm row ALPAKA_ACC_GPU_CUDA_ENABLE "!=" OFF_VER &&
      row_check_backend_versionB pm row ALPAKA_ACC_GPU_CUDA_ENABLE "<" "11.0" then
    false
  -- all rocm images are Ubuntu 20.04 based
  else if row_check_versionB pm row UBUNTU "!=" "20.04" &&
      row_check_nameB pm row DEVICE_COMPILER "==" HIPCC &&
      row_check_backend_versionB pm row ALPAKA_ACC_GPU_HIP_ENABLE "!=" OFF_VER then
    false
  -- CMake versions <= 3.18 do not support clang-cuda correctly
  else if row_check_nameB pm row DEVICE_COMPILER "==" CLANG_CUDA &&
      row_check_versionB pm row CMAKE "<" "3.19" then
    false
  -- nvcc 11.0-11.3 + gcc 10 + Ubuntu 20.04 is disabled
  else if row_check_nameB pm row DEVICE_COMPILER "==" NVCC &&
      (row_check_versionB pm row DEVICE_COMPILER "==" "11.0" ||
       row_check_versionB pm row DEVICE_COMPILER "==" "11.1" ||
       row_check_versionB pm row DEVICE_COMPILER "==" "11.2" ||
       row_check_versionB pm row DEVICE_COMPILER "==" "11.3") &&
      row_check_nameB pm row HOST_COMPILER "==" GCC &&
      row_check_versionB pm row HOST_COMPILER "==" "10" &&
      row_check_versionB pm row UBUNTU "==" "20.04" then
    false
  else true

/-! ## The validate tool (`validate.py`) -/

/-- Embedding of `get_required_parameter` of `filter_compiler_name.py`. -/
def required_parameter_compiler_name : List String :=
  [HOST_COMPILER, DEVICE_COMPILER]

/-- Embedding of `get_required_parameter` of `filter_compiler_version.py`. -/
def required_parameter_compiler_version : List String :=
  [HOST_COMPILER, DEVICE_COMPILER]

/-- Embedding of `get_required_parameter` of `filter_backend_version.py`. -/
def required_parameter_backend_version : List String :=
  [DEVICE_COMPILER, BACKENDS]

/-- Embedding of `get_required_parameter` of `filter_software_dependency.py`. -/
def required_parameter_software_dependency : List String :=
  [HOST_COMPILER, DEVICE_COMPILER, BACKENDS, UBUNTU, CMAKE, CXX_STANDARD]

/-- Embedding of `check_single_filter` of `validate.py`: if a required parameter is absent
from the parameter set the filter is skipped with result `False`; otherwise
`param_map` is configured from the parameter set's order, the set is turned
into a row and the filter is evaluated. -/
def check_single_filter (filter : ParamMap → Row → Bool) (req_params : List String)
    (parameters : List (String × RowElem)) : Bool :=
  let missing_parameters :=
    req_params.filter (fun req_name => ¬ parameters.any (fun p => p.1 = req_name))
  if missing_parameters ≠ [] then
    false
  else
    let pm : ParamMap := fun name =>
      (parameters.findIdx? (fun p => p.1 = name)).getD parameters.length
    let row : Row := parameters.map (·.2)
    filter pm row

/-- Embedding of `check_filters` of `validate.py`: every filter contributes 1 when it
passes and the row is accepted when all four do. -/
def check_filters (parameters : List (String × RowElem)) : Bool :=
  let all_true : Nat :=
    (if check_single_filter general_compiler_filter
        required_parameter_compiler_name parameters then 1 else 0) +
    (if check_single_filter compiler_version_filter
        required_parameter_compiler_version parameters then 1 else 0) +
    (if check_single_filter compiler_backend_filter
        required_parameter_backend_version parameters then 1 else 0) +
    (if check_single_filter software_dependency_filter
        required_parameter_software_dependency parameters then 1 else 0)
  all_true = 4

/-! ## Job-list utilities (`util.py`) -/

/-- A CI job as the ordering pipeline sees it: the first dictionary key is the
job name, the payload is opaque.  `reorder_job_list*` only ever inspects
`list(job.keys())[0]`. -/
abbrev Job := String × String

/-- Python `str.strip` (whitespace at both ends), used by
`reorder_job_list`. -/
def pyStrip (s : String) : String :=
  ⟨(((s.data.dropWhile Char.isWhitespace).reverse.dropWhile Char.isWhitespace).reverse)⟩

/-- Python `str.split(" ")`, used by `reorder_job_list`; on the empty string
it returns `[""]`. -/
def pySplitSpace (s : String) : List String :=
  go s.data []
where
  go : List Char → List Char → List String
    | [], acc => [⟨acc.reverse⟩]
    | c :: cs, acc =>
      if c = ' ' then ⟨acc.reverse⟩ :: go cs [] else go cs (c :: acc)

/-- Model of `re.compile(pattern).match(name)` for the plain-text patterns the
job names are reordered by: a match at the beginning of the string, i.e. the
pattern is a prefix of the name.  In particular the empty pattern matches
every name, as in Python. -/
def reMatch (pattern name : String) : Bool :=
  pattern.data.isPrefixOf name.data

/-- The first pass of `reorder_job_list_single_regex`: the indices of the jobs
whose name matches. -/
def matchedIndices (mtch : String → Bool) (job_matrix : List Job) : List Nat :=
  ((job_matrix.enum.filter (fun ij => mtch ij.2.1)).map (·.1))

/-- The second pass of `reorder_job_list_single_regex`: walk the enumerated
job list, inserting matched jobs at position 0 of the new list and appending
the others. -/
def reorder_job_list_single_match (mtch : String → Bool) (job_matrix : List Job) :
    List Job :=
  let index_list := matchedIndices mtch job_matrix
  job_matrix.enum.foldl
    (fun new_job_list ij =>
      if index_list.contains ij.1 then ij.2 :: new_job_list
      else new_job_list ++ [ij.2])
    []

/-- Embedding of `reorder_job_list_single_regex` of `util.py`. -/
def reorder_job_list_single_regex (job_matrix : List Job) (job_name_regex : String) :
    List Job :=
  reorder_job_list_single_match (reMatch job_name_regex) job_matrix

/-- Embedding of `reorder_job_list` of `util.py`: split the regex string at whitespaces,
reverse the list and apply the single-regex reorder for each entry. -/
def reorder_job_list (job_matrix : List Job) (job_name_regex : String) : List Job :=
  let ordering_list := (pySplitSpace (pyStrip job_name_regex)).reverse
  ordering_list.foldl
    (fun tmp_job_matrix regex => reorder_job_list_single_regex tmp_job_matrix regex)
    job_matrix

/-- A job of the pre-serialization matrix: a dictionary from parameter names
to `(name, version)` pairs. -/
abbrev JobDict := List (String × (String × String))

/-- All items of `searched_job` occur with equal value in `job_combination`
(the loop of `search_and_move_job` counts matches and compares against the
number of searched items). -/
def jobMatchesAll (searched_job : JobDict) (job_combination : JobDict) : Bool :=
  searched_job.all (fun kv =>
    match job_combination.lookup kv.1 with
    | some v => v = kv.2
    | none => false)

/-- Python `list.insert`: the index is clamped to the end of the list. -/
def pyListInsert (position : Nat) (x : α) : List α → List α
  | [] => [x]
  | y :: ys =>
    match position with
    | 0 => x :: y :: ys
    | n + 1 => y :: pyListInsert n x ys

/-- Embedding of `search_and_move_job` of `util.py`: raises `IndexError` on an empty
search dictionary; otherwise pops the first matching job (if any) and
re-inserts it at `position`. -/
def search_and_move_job (job_matrix : List JobDict) (searched_job : JobDict)
    (position : Nat := 0) : Except String (Bool × List JobDict) :=
  if searched_job.length = 0 then
    .error "searched_job must not be empty"
  else
    match job_matrix.findIdx? (jobMatchesAll searched_job) with
    | some index =>
      .ok (true, pyListInsert position (job_matrix.getD index []) (job_matrix.eraseIdx index))
    | none => .ok (false, job_matrix)

/-! ## The coverage oracle (`impl2.py`) -/

/-- Embedding of `ExpectedResult` of `impl2.py`; the version stays the string it was
parsed from, since the oracle only copies and compares values. -/
structure ExpectedResult where
  v1_parameter_name : String
  v1_name : String
  v1_version : String
  v2_parameter_name : String
  v2_name : String
  v2_version : String
deriving DecidableEq, Repr

/-- The ordered `parameters` mapping of `impl2.py`: parameter name to variant
domain (an `OrderedDict`, so the keys are unique and ordered). -/
abbrev ParamDomains := List (String × List (String × String))

/-- Python dict lookup `parameters[name]` (every looked-up key exists in the
source because the names are drawn from the mapping itself). -/
def domainOf (parameters : ParamDomains) (name : String) : List (String × String) :=
  ((parameters.lookup name).getD [])

/-- Embedding of `loop_over_parameter_values` of `impl2.py`: all combinations of one
variant of the first parameter with one variant of the second. -/
def loop_over_parameter_values (parameters : ParamDomains)
    (v1_parameter_name v2_parameter_name : String) : List ExpectedResult :=
  (domainOf parameters v1_parameter_name).flatMap (fun v1 =>
    (domainOf parameters v2_parameter_name).map (fun v2 =>
      ⟨v1_parameter_name, v1.1, v1.2, v2_parameter_name, v2.1, v2.2⟩))

/-- The key at index `i` of the ordered mapping (the `param_map` indirection
of `impl2.py`). -/
def keyAt (parameters : ParamDomains) (i : Nat) : String :=
  (parameters.getD i ("", [])).1

/-- Embedding of `generate_control_matrix` of `impl2.py`: for every index pair
`v1_index < v2_index` emit all value combinations of the two parameters. -/
def generate_control_matrix (parameters : ParamDomains) : List ExpectedResult :=
  (List.range parameters.length).flatMap (fun v1_index =>
    (List.range' (v1_index + 1) (parameters.length - (v1_index + 1))).flatMap (fun v2_index =>
      loop_over_parameter_values parameters
        (keyAt parameters v1_index) (keyAt parameters v2_index)))

/-- The `param_map` configuration used by the test scenarios (`tests/`): host
compiler, device compiler and the back-end list occupy the first three row
positions; the software parameters follow. -/
def pmStd : ParamMap := fun name =>
  if name = HOST_COMPILER then 0
  else if name = DEVICE_COMPILER then 1
  else if name = BACKENDS then 2
  else if name = UBUNTU then 3
  else if name = CXX_STANDARD then 4
  else if name = CMAKE then 5
  else 100

/-! ## Structure of the single-regex reorder -/

/-- The second pass of `reorder_job_list_single_regex` as a fold: jobs
selected by `q` are collected in reverse in front, the others are appended in
order behind the accumulator. -/
theorem foldl_insert_append {α β : Type} (q : α → Bool) (f : α → β) :
    ∀ (l : List α) (acc : List β),
      l.foldl (fun nl x => if q x then f x :: nl else nl ++ [f x]) acc
        = ((l.filter q).map f).reverse ++ acc ++ ((l.filter (fun x => !q x)).map f) := by
  intro l
  induction l with
  | nil => intro acc; simp
  | cons x xs ih =>
    intro acc
    by_cases hx : q x
    · simp [List.foldl_cons, hx, ih, List.filter_cons, List.append_assoc]
    · simp [List.foldl_cons, hx, ih, List.filter_cons, List.append_assoc]

/-- Projecting the entries of a filtered enumeration back to the underlying
list. -/
theorem enumFrom_filter_snd_map {β : Type} (p : β → Bool) :
    ∀ (n : Nat) (l : List β),
      ((List.enumFrom n l).filter (fun ij => p ij.2)).map (·.2) = l.filter p := by
  intro n l
  induction l generalizing n with
  | nil => simp
  | cons x xs ih =>
    by_cases hx : p x
    · simp [List.enumFrom_cons, List.filter_cons, hx, ih]
    · simp [List.enumFrom_cons, List.filter_cons, hx, ih]

/-- On the enumerated job list, membership of an index in `matchedIndices`
agrees with the match predicate on the job at that index. -/
theorem matchedIndices_contains (mtch : String → Bool) (jobs : List Job) :
    ∀ ij ∈ jobs.enum, (matchedIndices mtch jobs).contains ij.1 = mtch ij.2.1 := by
  rintro ⟨i, j⟩ hij
  have hget : jobs[i]? = some j := List.mem_enum_iff_getElem?.mp hij
  have hiff : i ∈ matchedIndices mtch jobs ↔ mtch j.1 = true := by
    constructor
    · intro hmem
      obtain ⟨⟨i', j'⟩, hmem', hfst⟩ := List.mem_map.mp hmem
      obtain ⟨henum, hmatch⟩ := List.mem_filter.mp hmem'
      simp only at hfst
      subst hfst
      have h2 : jobs[i']? = some j' := List.mem_enum_iff_getElem?.mp henum
      rw [hget] at h2
      cases h2
      simpa using hmatch
    · intro h
      exact List.mem_map.mpr ⟨(i, j), List.mem_filter.mpr ⟨hij, by simpa using h⟩, rfl⟩
  show List.elem i (matchedIndices mtch jobs) = mtch j.1
  rw [List.elem_eq_mem]
  cases h : mtch j.1
  · simp [hiff, h]
  · simp [hiff, h]

/-- Structure of one reorder pass: the matching jobs come first in reversed
input order, the non-matching jobs follow in input order. -/
theorem reorder_single_match_eq (mtch : String → Bool) (jobs : List Job) :
    reorder_job_list_single_match mtch jobs
      = ((jobs.filter (fun j => mtch j.1)).reverse) ++ jobs.filter (fun j => !(mtch j.1)) := by
  have hpt := matchedIndices_contains mtch jobs
  have h1 : reorder_job_list_single_match mtch jobs
      = ((jobs.enum.filter (fun ij => (matchedIndices mtch jobs).contains ij.1)).map
          (fun ij => ij.2)).reverse ++ [] ++
        ((jobs.enum.filter (fun ij => !(matchedIndices mtch jobs).contains ij.1)).map
          (fun ij => ij.2)) :=
    foldl_insert_append (fun ij : Nat × Job => (matchedIndices mtch jobs).contains ij.1)
      (fun ij : Nat × Job => ij.2) jobs.enum []
  rw [h1]
  have h2 : jobs.enum.filter (fun ij => (matchedIndices mtch jobs).contains ij.1)
      = jobs.enum.filter (fun ij => mtch ij.2.1) :=
    List.filter_congr hpt
  have h3 : jobs.enum.filter (fun ij => !(matchedIndices mtch jobs).contains ij.1)
      = jobs.enum.filter (fun ij => !(mtch ij.2.1)) :=
    List.filter_congr (fun x hx => by rw [hpt x hx])
  rw [h2, h3]
  have h4 : (jobs.enum.filter (fun ij => mtch ij.2.1)).map (fun ij => ij.2)
      = jobs.filter (fun j => mtch j.1) :=
    enumFrom_filter_snd_map (fun j => mtch j.1) 0 jobs
  have h5 : (jobs.enum.filter (fun ij => !(mtch ij.2.1))).map (fun ij => ij.2)
      = jobs.filter (fun j => !(mtch j.1)) :=
    enumFrom_filter_snd_map (fun j => !(mtch j.1)) 0 jobs
  rw [h4, h5]
  simp

/-- C1 (amended): for every job matrix and every single priority pattern,
`reorder_job_list_single_regex` moves the jobs whose name matches the pattern
to the front as a contiguous block in REVERSED original order (each matched
job is inserted at position 0), and the non-matching jobs follow in their
original relative order.  The first conjunct states this for an arbitrary
match predicate (covering every regex semantics), the second for the
pattern-level function with the literal-pattern regex model. -/
theorem claim_C1_single_regex_reorder_structure :
    (∀ (mtch : String → Bool) (jobs : List Job),
      reorder_job_list_single_match mtch jobs
        = ((jobs.filter (fun j => mtch j.1)).reverse) ++
            jobs.filter (fun j => !(mtch j.1))) ∧
    (∀ (pattern : String) (jobs : List Job),
      reorder_job_list_single_regex jobs pattern
        = ((jobs.filter (fun j => reMatch pattern j.1)).reverse) ++
            jobs.filter (fun j => !(reMatch pattern j.1))) :=
  ⟨fun mtch jobs => reorder_single_match_eq mtch jobs,
   fun pattern jobs => reorder_single_match_eq (reMatch pattern) jobs⟩

/-- C1 counterexample: with the pattern "a" both jobs of the matrix match, and
the result is NOT (matching jobs in input order) ++ (non-matching jobs in
input order) — the matched block comes out reversed. -/
theorem claim_C1_counterexample :
    reorder_job_list_single_regex [("a", "1"), ("ab", "2")] "a"
        = [("ab", "2"), ("a", "1")] ∧
      reorder_job_list_single_regex [("a", "1"), ("ab", "2")] "a"
        ≠ ([("a", "1"), ("ab", "2")].filter (fun j => reMatch "a" j.1)) ++
            ([("a", "1"), ("ab", "2")].filter (fun j => !(reMatch "a" j.1))) := by
  constructor
  · decide
  · decide

/-- C2 (amended): reordering with the empty pattern string returns the job
matrix REVERSED, not unchanged: `"".strip().split(" ")` yields `[""]` and the
empty regex matches every job name, so every job is inserted at position 0 in
input order. -/
theorem claim_C2_reorder_empty_regex_reverses (jobs : List Job) :
    reorder_job_list jobs "" = jobs.reverse := by
  have h0 : reorder_job_list jobs "" = reorder_job_list_single_match (reMatch "") jobs := rfl
  rw [h0, reorder_single_match_eq]
  have hm : ∀ s : String, reMatch "" s = true := by
    intro s
    show List.isPrefixOf ("" : String).data s.data = true
    rw [show ("" : String).data = [] from rfl]
    cases s.data <;> rfl
  have h1 : jobs.filter (fun j => reMatch "" j.1) = jobs :=
    List.filter_eq_self.mpr (fun a _ => hm a.1)
  have h2 : jobs.filter (fun j => !(reMatch "" j.1)) = [] :=
    List.filter_eq_nil_iff.mpr (fun a _ => by simp [hm a.1])
  rw [h1, h2, List.append_nil]

/-- C2 counterexample: reordering a two-job matrix by the empty pattern list
does not return it unchanged. -/
theorem claim_C2_counterexample :
    reorder_job_list [("a", "1"), ("b", "2")] "" ≠ [("a", "1"), ("b", "2")] := by
  decide

/-- C3 (amended): for every filter module and every parameter set that lacks
at least one of the module's required parameters, `check_single_filter` skips
the module and reports failure (`False`) without evaluating the module's
predicate — the result is `false` for EVERY predicate, so the predicate is
never consulted. -/
theorem claim_C3_skip_on_missing_reports_false
    (filter : ParamMap → Row → Bool) (req_params : List String)
    (parameters : List (String × RowElem))
    (h : ∃ r ∈ req_params, ∀ p ∈ parameters, p.1 ≠ r) :
    check_single_filter filter req_params parameters = false := by
  obtain ⟨r, hr, hmiss⟩ := h
  have hdef : check_single_filter filter req_params parameters =
      if (req_params.filter
            (fun req_name => ¬ parameters.any (fun p => p.1 = req_name))) ≠ [] then
        false
      else
        filter (fun name => (parameters.findIdx? (fun p => p.1 = name)).getD parameters.length)
          (parameters.map (·.2)) := rfl
  have hne : req_params.filter
      (fun req_name => ¬ parameters.any (fun p => p.1 = req_name)) ≠ [] := by
    intro hnil
    have hall := List.filter_eq_nil_iff.mp hnil r hr
    simp only [List.any_eq_true, decide_eq_true_eq, not_exists, not_and, not_not] at hall
    exact hall hmiss
  rw [hdef, if_pos hne]

/-- C3 counterexample: the claim predicts that checking a module against a
parameter set lacking a required parameter reports success (`True`); for the
backend filter module against the empty parameter set the check reports
`False`. -/
theorem claim_C3_counterexample :
    check_single_filter compiler_backend_filter required_parameter_backend_version []
      = false := by
  decide

/-- C3 witness. -/
theorem claim_C3_witness :
    check_single_filter general_compiler_filter required_parameter_compiler_name []
      = false :=
  claim_C3_skip_on_missing_reports_false general_compiler_filter
    required_parameter_compiler_name []
    ⟨HOST_COMPILER, by decide, by intro p hp; cases hp⟩

/-- C4: with host compiler (gcc, "13") and device compiler (nvcc, "11.2") the
version filter rejects the row, and with host compiler (gcc, "9") both the
name filter and the version filter admit it. -/
theorem claim_C4_gcc_nvcc_11_2 :
    compiler_version_filter pmStd [.single GCC "13", .single NVCC "11.2"] = false ∧
    general_compiler_filter pmStd [.single GCC "9", .single NVCC "11.2"] = true ∧
    compiler_version_filter pmStd [.single GCC "9", .single NVCC "11.2"] = true := by
  refine ⟨by decide, by decide, by decide⟩

/-- C5: the row with host and device compiler (hipcc, "5.5") and backend list
`[(ALPAKA_ACC_GPU_HIP_ENABLE, "5.5")]` (no CUDA entry) is admitted by all four
filter modules; adding `(ALPAKA_ACC_GPU_CUDA_ENABLE, "11.2")` to the backend
list makes `compiler_backend_filter` reject the row. -/
theorem claim_C5_hipcc_row :
    general_compiler_filter pmStd
      [.single HIPCC "5.5", .single HIPCC "5.5",
        .backendList [(ALPAKA_ACC_GPU_HIP_ENABLE, "5.5")]] = true ∧
    compiler_version_filter pmStd
      [.single HIPCC "5.5", .single HIPCC "5.5",
        .backendList [(ALPAKA_ACC_GPU_HIP_ENABLE, "5.5")]] = true ∧
    compiler_backend_filter pmStd
      [.single HIPCC "5.5", .single HIPCC "5.5",
        .backendList [(ALPAKA_ACC_GPU_HIP_ENABLE, "5.5")]] = true ∧
    software_dependency_filter pmStd
      [.single HIPCC "5.5", .single HIPCC "5.5",
        .backendList [(ALPAKA_ACC_GPU_HIP_ENABLE, "5.5")]] = true ∧
    compiler_backend_filter pmStd
      [.single HIPCC "5.5", .single HIPCC "5.5",
        .backendList [(ALPAKA_ACC_GPU_HIP_ENABLE, "5.5"),
          (ALPAKA_ACC_GPU_CUDA_ENABLE, "11.2")]] = false := by
  refine ⟨by decide, by decide, by decide, by decide, by decide⟩

/-- C6: for every host compiler entry (gcc, v) or (clang, v), with any
version string v, the row with device compiler (nvcc, "42.0") — newer than
every entry of the compatibility tables — is admitted by
`compiler_version_filter`: the whole gcc/clang host block, including the
minimum-GCC-6 rule, is guarded by `device_version <= 12.3`, so versions above
the table never reach a rejection. -/
theorem claim_C6_future_nvcc_admitted (v : String) :
    compiler_version_filter pmStd [.single GCC v, .single NVCC "42.0"] = true ∧
    compiler_version_filter pmStd [.single CLANG v, .single NVCC "42.0"] = true :=
  ⟨rfl, rfl⟩

/-- C7: `search_and_move_job` raises exactly when the searched-job key set is
empty; for a non-empty search key it never raises, returns `False` with the
matrix untouched when no job matches all searched attributes, and returns
`True` after popping the first matching job and re-inserting it at the given
position otherwise. -/
theorem claim_C7_search_and_move (job_matrix : List JobDict) (searched_job : JobDict)
    (position : Nat) :
    (searched_job = [] →
      search_and_move_job job_matrix searched_job position
        = .error "searched_job must not be empty") ∧
    (searched_job ≠ [] →
      (search_and_move_job job_matrix searched_job position).isOk = true) ∧
    (searched_job ≠ [] →
      (∀ job ∈ job_matrix, jobMatchesAll searched_job job = false) →
      search_and_move_job job_matrix searched_job position = .ok (false, job_matrix)) ∧
    (searched_job ≠ [] →
      ∀ index, job_matrix.findIdx? (jobMatchesAll searched_job) = some index →
      search_and_move_job job_matrix searched_job position
        = .ok (true, pyListInsert position (job_matrix.getD index [])
            (job_matrix.eraseIdx index))) := by
  refine ⟨?_, ?_, ?_, ?_⟩
  · intro h
    subst h
    rfl
  · intro hne
    have hlen : ¬ searched_job.length = 0 := fun h => hne (List.length_eq_zero.mp h)
    unfold search_and_move_job
    rw [if_neg hlen]
    cases h : job_matrix.findIdx? (jobMatchesAll searched_job) <;>
      simp [h, Except.isOk, Except.toBool]
  · intro hne hnone
    have hlen : ¬ searched_job.length = 0 := fun h => hne (List.length_eq_zero.mp h)
    unfold search_and_move_job
    rw [if_neg hlen, List.findIdx?_eq_none_iff.mpr (fun x hx => by simp [hnone x hx])]
  · intro hne index hidx
    have hlen : ¬ searched_job.length = 0 := fun h => hne (List.length_eq_zero.mp h)
    unfold search_and_move_job
    rw [if_neg hlen, hidx]

/-- C7 witness. -/
theorem claim_C7_witness :
    search_and_move_job [[("k", ("a", "1"))], [("k", ("b", "2"))]] [("k", ("b", "2"))] 0
      = .ok (true, [[("k", ("b", "2"))], [("k", ("a", "1"))]]) := by
  have h := (claim_C7_search_and_move [[("k", ("a", "1"))], [("k", ("b", "2"))]]
    [("k", ("b", "2"))] 0).2.2.2 (by decide) 1 (by rfl)
  simpa using h

/-- C8 (amended): for a bound backend axis holding a backend list,
`backend_is_not_in_row` returns `False` exactly when some sub-variant carries
the searched name; and for every SUPPORTED operator, `row_check_backend_version`
returns `.ok false` (no exception) whenever the backend axis is absent or the
searched name is not in the backend list.  The operator restriction is forced
by the counterexample: the operator is validated before the row is consulted,
so an unsupported operator raises `ValueError` even for an absent axis. -/
theorem claim_C8_backend_checks (pm : ParamMap) (row : Row) (backend : String) :
    (∀ bl : List (String × String), pm BACKENDS < row.length →
      rowAt pm row BACKENDS = .backendList bl →
      (backend_is_not_in_row pm row backend = false ↔ ∃ rb ∈ bl, rb.1 = backend)) ∧
    (∀ opr version : String, opr ∈ operatorNames →
      (¬ pm BACKENDS < row.length ∨
        ∀ rb ∈ elemBackends (rowAt pm row BACKENDS), rb.1 ≠ backend) →
      row_check_backend_version pm row backend opr version = .ok false) := by
  constructor
  · intro bl hlt hshape
    have hin : is_in_row pm row BACKENDS = true := by simp [is_in_row, hlt]
    simp [backend_is_not_in_row, hin, hshape, elemBackends, List.any_eq_true]
  · intro opr version hop hcond
    unfold row_check_backend_version
    rw [if_neg (not_not_intro hop)]
    rcases hcond with h | h
    · have hin : is_in_row pm row BACKENDS = false := by simp [is_in_row, h]
      simp [row_check_backend_versionB, hin]
    · have hfind : (elemBackends (rowAt pm row BACKENDS)).find?
          (fun rb => rb.1 = backend) = none :=
        List.find?_eq_none.mpr (fun x hx => by simpa using h x hx)
      by_cases hin : is_in_row pm row BACKENDS <;>
        simp [row_check_backend_versionB, hin, hfind]

/-- C8 counterexample: the claim quantifies over every operator string, but
with an unsupported operator `row_check_backend_version` raises `ValueError`
instead of returning `False`, even though the backend axis is absent from the
row. -/
theorem claim_C8_counterexample :
    row_check_backend_version (fun _ => 100) [] ALPAKA_ACC_GPU_CUDA_ENABLE "op?" "1"
        = .error "operator needs to be: ==, !=, <, <=, >, >=" ∧
      row_check_backend_version (fun _ => 100) [] ALPAKA_ACC_GPU_CUDA_ENABLE "op?" "1"
        ≠ .ok false := by
  constructor
  · rfl
  · intro h
    rw [show row_check_backend_version (fun _ => 100) [] ALPAKA_ACC_GPU_CUDA_ENABLE "op?" "1"
        = Except.error "operator needs to be: ==, !=, <, <=, >, >=" from rfl] at h
    exact Except.noConfusion h

/-- C8 witness. -/
theorem claim_C8_witness :
    (backend_is_not_in_row pmStd
        [.single GCC "9", .single NVCC "11.2",
          .backendList [(ALPAKA_ACC_GPU_CUDA_ENABLE, "11.2")]] ALPAKA_ACC_GPU_CUDA_ENABLE
          = false ↔
      ∃ rb ∈ [(ALPAKA_ACC_GPU_CUDA_ENABLE, "11.2")], rb.1 = ALPAKA_ACC_GPU_CUDA_ENABLE) ∧
    row_check_backend_version pmStd [.single GCC "9"] ALPAKA_ACC_GPU_CUDA_ENABLE ">=" "11.0"
      = .ok false := by
  constructor
  · exact (claim_C8_backend_checks pmStd
      [.single GCC "9", .single NVCC "11.2",
        .backendList [(ALPAKA_ACC_GPU_CUDA_ENABLE, "11.2")]] ALPAKA_ACC_GPU_CUDA_ENABLE).1
      [(ALPAKA_ACC_GPU_CUDA_ENABLE, "11.2")] (by decide) (by rfl)
  · exact (claim_C8_backend_checks pmStd [.single GCC "9"] ALPAKA_ACC_GPU_CUDA_ENABLE).2
      ">=" "11.0" (by decide) (Or.inl (by decide))

/-- C10: all three row checks validate the operator before consulting the row:
`row_check_name` raises `ValueError` for every operator other than `==`/`!=`,
and `row_check_version` and `row_check_backend_version` raise `ValueError` for
every operator outside the six supported ones — for every row, including rows
where the column or backend is absent. -/
theorem claim_C10_operator_validated_first (pm : ParamMap) (row : Row)
    (colum backend opr name version : String) :
    (¬ (opr = "==" ∨ opr = "!=") →
      row_check_name pm row colum opr name
        = .error "op (operator) needs to be == or !=") ∧
    (opr ∉ operatorNames →
      row_check_version pm row colum opr version
        = .error "operator needs to be: ==, !=, <, <=, >, >=") ∧
    (opr ∉ operatorNames →
      row_check_backend_version pm row backend opr version
        = .error "operator needs to be: ==, !=, <, <=, >, >=") := by
  refine ⟨fun h => ?_, fun h => ?_, fun h => ?_⟩
  · unfold row_check_name
    rw [if_pos h]
  · unfold row_check_version
    rw [if_pos h]
  · unfold row_check_backend_version
    rw [if_pos h]

/-- C10 witness. -/
theorem claim_C10_witness :
    row_check_name (fun _ => 0) [] "col" "<>" "gcc"
        = .error "op (operator) needs to be == or !=" ∧
    row_check_version (fun _ => 0) [] "col" "<>" "9"
        = .error "operator needs to be: ==, !=, <, <=, >, >=" ∧
    row_check_backend_version (fun _ => 0) [] "cuda" "<>" "9"
        = .error "operator needs to be: ==, !=, <, <=, >, >=" := by
  have h := claim_C10_operator_validated_first (fun _ => 0) [] "col" "cuda" "<>" "gcc" "9"
  exact ⟨h.1 (by decide), h.2.1 (by decide), h.2.2 (by decide)⟩

/-! ## Structure of the coverage oracle -/

/-- The variant domain at index `i` of the ordered mapping. -/
def domAt (parameters : ParamDomains) (i : Nat) : List (String × String) :=
  (parameters.getD i ("", [])).2

/-- With unique parameter names, looking up the `i`-th key returns the `i`-th
domain. -/
theorem lookup_keyAt (parameters : ParamDomains)
    (hk : (parameters.map Prod.fst).Nodup) :
    ∀ i, i < parameters.length →
      parameters.lookup (keyAt parameters i) = some (domAt parameters i) := by
  induction parameters with
  | nil => intro i hi; cases hi
  | cons p rest ih =>
    obtain ⟨k, d⟩ := p
    intro i hi
    cases i with
    | zero =>
      simp [keyAt, domAt, List.lookup]
    | succ i =>
      have hk' : (rest.map Prod.fst).Nodup := (List.nodup_cons.mp hk).2
      have hknot : k ∉ rest.map Prod.fst := (List.nodup_cons.mp hk).1
      have hi' : i < rest.length := Nat.lt_of_succ_lt_succ hi
      have hkey : keyAt ((k, d) :: rest) (i + 1) = keyAt rest i := rfl
      have hdom : domAt ((k, d) :: rest) (i + 1) = domAt rest i := rfl
      have hmem : keyAt rest i ∈ rest.map Prod.fst := by
        have : rest.getD i ("", []) = rest[i] := List.getD_eq_getElem rest ("", []) hi'
        rw [keyAt, this]
        exact List.mem_map.mpr ⟨rest[i], List.getElem_mem hi', rfl⟩
      have hne : ¬ (keyAt rest i == k) = true := by
        simp only [beq_iff_eq]
        intro h
        exact hknot (h ▸ hmem)
      rw [hkey, hdom, List.lookup_cons]
      simp only [hne]
      exact ih hk' i hi'

/-- The number of expected tuples for one parameter pair is the product of the
two domain sizes. -/
theorem loop_over_length (parameters : ParamDomains) (k1 k2 : String) :
    (loop_over_parameter_values parameters k1 k2).length
      = (domainOf parameters k1).length * (domainOf parameters k2).length := by
  unfold loop_over_parameter_values
  rw [List.length_flatMap]
  simp [Function.comp_def, List.map_const']

/-- Sum of a pointwise `if x = a then c else 0` map counts the occurrences of
`a`. -/
theorem sum_map_ite_eq_count {α : Type} [BEq α] [LawfulBEq α] [DecidableEq α]
    (a : α) (c : Nat) :
    ∀ l : List α, (l.map (fun x => if x = a then c else 0)).sum = l.count a * c := by
  intro l
  induction l with
  | nil => simp
  | cons x xs ih =>
    by_cases h : x = a
    · subst h
      simp [ih, List.count_cons, Nat.add_mul]
      omega
    · simp [h, ih, List.count_cons]

/-- If `f` vanishes everywhere on `l` except at `a`, which occurs exactly
once, the sum of `f` over `l` is `f a`. -/
theorem sum_map_eq_single {f : Nat → Nat} {a : Nat} :
    ∀ {l : List Nat}, l.count a = 1 → (∀ x ∈ l, x ≠ a → f x = 0) →
      (l.map f).sum = f a := by
  intro l
  induction l with
  | nil => intro hc; simp at hc
  | cons x xs ih =>
    intro hc h0
    by_cases h : x = a
    · subst h
      have hzero : xs.count x = 0 := by
        have := hc
        simp [List.count_cons] at this
        omega
      have : (xs.map f).sum = 0 := by
        apply List.sum_eq_zero
        intro y hy
        obtain ⟨z, hz, hfz⟩ := List.mem_map.mp hy
        have hzx : z ≠ x := fun hzz =>
          (List.count_eq_zero.mp hzero) (hzz ▸ hz)
        rw [← hfz]
        exact h0 z (List.mem_cons_of_mem x hz) hzx
      simp [this]
    · have hc' : xs.count a = 1 := by
        have := hc
        simp [List.count_cons, h] at this
        simpa using this
      have hfx : f x = 0 := h0 x (List.mem_cons_self x xs) h
      simp [hfx, ih hc' (fun y hy hya => h0 y (List.mem_cons_of_mem x hy) hya)]

/-- Counting one expected tuple in the product list of one parameter pair:
the count is the product of the value counts in the two domains. -/
theorem count_loop_over (parameters : ParamDomains) (k1 k2 : String)
    (p1 p2 : String × String) :
    (loop_over_parameter_values parameters k1 k2).count
        ⟨k1, p1.1, p1.2, k2, p2.1, p2.2⟩
      = (domainOf parameters k1).count p1 * (domainOf parameters k2).count p2 := by
  unfold loop_over_parameter_values
  rw [List.count_flatMap]
  have hinner : ∀ v1 : String × String,
      ((domainOf parameters k2).map
          (fun v2 => (⟨k1, v1.1, v1.2, k2, v2.1, v2.2⟩ : ExpectedResult))).count
        ⟨k1, p1.1, p1.2, k2, p2.1, p2.2⟩
      = if v1 = p1 then (domainOf parameters k2).count p2 else 0 := by
    intro v1
    by_cases h : v1 = p1
    · subst h
      rw [if_pos rfl]
      have hmap : ∀ dom2 : List (String × String),
          (dom2.map (fun v2 => (⟨k1, v1.1, v1.2, k2, v2.1, v2.2⟩ : ExpectedResult))).count
            ⟨k1, v1.1, v1.2, k2, p2.1, p2.2⟩ = dom2.count p2 := by
        intro dom2
        induction dom2 with
        | nil => simp
        | cons x xs ih =>
          simp [List.count_cons, ih, ExpectedResult.mk.injEq, Prod.ext_iff]
      exact hmap (domainOf parameters k2)
    · rw [if_neg h, List.count_eq_zero]
      intro hmem
      obtain ⟨v2, _, heq⟩ := List.mem_map.mp hmem
      simp only [ExpectedResult.mk.injEq] at heq
      exact h (Prod.ext heq.2.1 heq.2.2.1)
  calc ((domainOf parameters k1).map
        (List.count ⟨k1, p1.1, p1.2, k2, p2.1, p2.2⟩ ∘ fun v1 =>
          (domainOf parameters k2).map
            (fun v2 => (⟨k1, v1.1, v1.2, k2, v2.1, v2.2⟩ : ExpectedResult)))).sum
      = ((domainOf parameters k1).map
          (fun v1 => if v1 = p1 then (domainOf parameters k2).count p2 else 0)).sum := by
        exact congrArg List.sum (List.map_congr_left (fun v1 _ => hinner v1))
    _ = (domainOf parameters k1).count p1 * (domainOf parameters k2).count p2 :=
        sum_map_ite_eq_count p1 ((domainOf parameters k2).count p2) (domainOf parameters k1)

/-- An expected tuple whose parameter names do not both match the pair's
parameter names never occurs in that pair's product list. -/
theorem count_loop_over_ne (parameters : ParamDomains) (k1 k2 : String)
    (er : ExpectedResult)
    (h : er.v1_parameter_name ≠ k1 ∨ er.v2_parameter_name ≠ k2) :
    (loop_over_parameter_values parameters k1 k2).count er = 0 := by
  rw [List.count_eq_zero]
  intro hmem
  unfold loop_over_parameter_values at hmem
  rw [List.mem_flatMap] at hmem
  obtain ⟨v1, _, hmem2⟩ := hmem
  obtain ⟨v2, _, heq⟩ := List.mem_map.mp hmem2
  rcases h with h | h
  · exact h (by rw [← heq])
  · exact h (by rw [← heq])

/-- With unique parameter names, distinct indices carry distinct keys. -/
theorem keyAt_inj (parameters : ParamDomains)
    (hk : (parameters.map Prod.fst).Nodup) {i j : Nat}
    (hi : i < parameters.length) (hj : j < parameters.length) (hij : i ≠ j) :
    keyAt parameters i ≠ keyAt parameters j := by
  have hi' : i < (parameters.map Prod.fst).length := by simpa using hi
  have hj' : j < (parameters.map Prod.fst).length := by simpa using hj
  have h1 : keyAt parameters i = (parameters.map Prod.fst)[i] := by
    rw [keyAt, List.getD_eq_getElem parameters ("", []) hi, List.getElem_map]
  have h2 : keyAt parameters j = (parameters.map Prod.fst)[j] := by
    rw [keyAt, List.getD_eq_getElem parameters ("", []) hj, List.getElem_map]
  rw [h1, h2]
  intro h
  exact hij ((hk.getElem_inj_iff).mp h)

/-- In a duplicate-free list every member is counted exactly once (stated for
an arbitrary lawful `BEq` instance). -/
theorem count_eq_one_of_mem' {α : Type} [BEq α] [LawfulBEq α] {a : α} :
    ∀ {l : List α}, l.Nodup → a ∈ l → l.count a = 1 := by
  intro l
  induction l with
  | nil => intro _ h; cases h
  | cons x xs ih =>
    intro hnd h
    rw [List.count_cons]
    rcases List.mem_cons.mp h with h | h
    · subst h
      simp [List.count_eq_zero.mpr (List.nodup_cons.mp hnd).1]
    · have hxa : ¬ (x == a) = true := by
        simp only [beq_iff_eq]
        intro hxa
        exact (List.nodup_cons.mp hnd).1 (hxa ▸ h)
      simp [hxa, ih (List.nodup_cons.mp hnd).2 h]

/-- C9: for an ordered mapping with unique parameter names and
duplicate-free variant domains, `generate_control_matrix` emits exactly one
expected tuple for every parameter index pair `i < j` and every combination
of one variant from each of the two domains, and its length is the sum over
all pairs `i < j` of `|domain(i)| * |domain(j)|`. -/
theorem claim_C9_generate_control_matrix (parameters : ParamDomains)
    (hk : (parameters.map Prod.fst).Nodup)
    (hd : ∀ d ∈ parameters, d.2.Nodup) :
    (generate_control_matrix parameters).length
        = ((List.range parameters.length).map (fun i =>
            ((List.range' (i + 1) (parameters.length - (i + 1))).map (fun j =>
              (domAt parameters i).length * (domAt parameters j).length)).sum)).sum ∧
    (∀ i j, i < j → j < parameters.length →
      ∀ p1 ∈ domAt parameters i, ∀ p2 ∈ domAt parameters j,
        (generate_control_matrix parameters).count
            ⟨keyAt parameters i, p1.1, p1.2, keyAt parameters j, p2.1, p2.2⟩ = 1) := by
  constructor
  · unfold generate_control_matrix
    rw [List.length_flatMap]
    apply congrArg List.sum
    apply List.map_congr_left
    intro i hi
    have hin : i < parameters.length := List.mem_range.mp hi
    rw [Function.comp_apply, List.length_flatMap]
    apply congrArg List.sum
    apply List.map_congr_left
    intro j hj
    have hjn : j < parameters.length := by
      obtain ⟨k, hk2, hkj⟩ := List.mem_range'.mp hj
      omega
    rw [Function.comp_apply, loop_over_length]
    unfold domainOf
    rw [lookup_keyAt parameters hk i hin, lookup_keyAt parameters hk j hjn]
    rfl
  · intro i j hij hjn p1 hp1 p2 hp2
    have hin : i < parameters.length := lt_trans hij hjn
    have hnd1 : (domAt parameters i).Nodup := by
      rw [domAt, List.getD_eq_getElem parameters ("", []) hin]
      exact hd parameters[i] (List.getElem_mem hin)
    have hnd2 : (domAt parameters j).Nodup := by
      rw [domAt, List.getD_eq_getElem parameters ("", []) hjn]
      exact hd parameters[j] (List.getElem_mem hjn)
    unfold generate_control_matrix
    rw [List.count_flatMap]
    rw [sum_map_eq_single
      (count_eq_one_of_mem' (List.nodup_range parameters.length)
        (List.mem_range.mpr hin))
      (by
        intro x hx hxi
        rw [Function.comp_apply, List.count_flatMap]
        apply List.sum_eq_zero
        intro y hy
        obtain ⟨j', hj', hy'⟩ := List.mem_map.mp hy
        rw [← hy', Function.comp_apply]
        apply count_loop_over_ne
        left
        exact keyAt_inj parameters hk hin (List.mem_range.mp hx)
          (fun h => hxi h.symm))]
    rw [Function.comp_apply, List.count_flatMap]
    have hjmem : j ∈ List.range' (i + 1) (parameters.length - (i + 1)) := by
      rw [List.mem_range'_1]
      omega
    have hjcnt : (List.range' (i + 1) (parameters.length - (i + 1))).count j = 1 :=
      count_eq_one_of_mem'
        (List.nodup_range' (i + 1) (parameters.length - (i + 1))) hjmem
    rw [sum_map_eq_single hjcnt
      (by
        intro x hx hxj
        rw [Function.comp_apply]
        apply count_loop_over_ne
        right
        have hxn : x < parameters.length := by
          rw [List.mem_range'_1] at hx
          omega
        exact keyAt_inj parameters hk hjn hxn (fun h => hxj h.symm))]
    rw [Function.comp_apply, count_loop_over]
    unfold domainOf
    rw [lookup_keyAt parameters hk i hin, lookup_keyAt parameters hk j hjn]
    simp only [Option.getD_some]
    rw [count_eq_one_of_mem' hnd1 hp1, count_eq_one_of_mem' hnd2 hp2]

/-- C9 witness. -/
theorem claim_C9_witness :
    (generate_control_matrix
        [("A", [("a", "1"), ("a", "2")]), ("B", [("b", "1")])]).length = 2 ∧
    (generate_control_matrix
        [("A", [("a", "1"), ("a", "2")]), ("B", [("b", "1")])]).count
      ⟨"A", "a", "2", "B", "b", "1"⟩ = 1 := by
  have h := claim_C9_generate_control_matrix
    [("A", [("a", "1"), ("a", "2")]), ("B", [("b", "1")])]
    (by decide) (by decide)
  constructor
  · rw [h.1]
    decide
  · exact h.2 0 1 (by decide) (by decide) ("a", "2") (by decide) ("b", "1") (by decide)

/-- C1 witness. -/
theorem claim_C1_witness :
    reorder_job_list_single_regex [("x", "1"), ("y", "2")] "x"
      = (([("x", "1"), ("y", "2")] : List Job).filter
          (fun j => reMatch "x" j.1)).reverse ++
        ([("x", "1"), ("y", "2")] : List Job).filter
          (fun j => !(reMatch "x" j.1)) :=
  claim_C1_single_regex_reorder_structure.2 "x" [("x", "1"), ("y", "2")]

/-- C2 witness. -/
theorem claim_C2_witness :
    reorder_job_list [("a", "1"), ("b", "2")] "" = [("b", "2"), ("a", "1")] := by
  rw [claim_C2_reorder_empty_regex_reverses [("a", "1"), ("b", "2")]]
  decide

/-- C6 witness: even the oldest catalogued gcc version is admitted together
with the future CUDA version. -/
theorem claim_C6_witness :
    compiler_version_filter pmStd [.single GCC "5", .single NVCC "42.0"] = true ∧
    compiler_version_filter pmStd [.single CLANG "5", .single NVCC "42.0"] = true :=
  claim_C6_future_nvcc_admitted "5"
